import Mathlib

/-!
Shallow embedding of the client-side state-synchronization core of the
video-journal frontend (the React module with processing suppression,
`src/unnamed/part_000`).  Network calls are modelled by passing each
handler the result of every fetch it may perform (`Except Unit _`,
`.error` standing for a thrown transport/decode error); React state
updates become sequential record updates; side effects that matter to
the claims (conversation fetches, toggle calls, message publications,
scheduled timeouts) are recorded in counters or action traces.
-/

namespace PwPy

/-- A conversation entry: `{ role, content }`. -/
structure Message where
  role : String
  content : String
deriving DecidableEq, Repr

/-- A processed-video entry as rendered by the UI. -/
structure Video where
  timestamp : String
  summary : String
  status : Option String
deriving DecidableEq, Repr

/-- The display-only memory projection returned by the backend. -/
structure MemoryContext where
  profile : Option String
  current_focus : Option String
  skills : List String
deriving DecidableEq, Repr

/-- The `/api/conversation` payload: history, videos and memory context. -/
structure Conversation where
  history : List Message
  videos : List Video
  memory_context : MemoryContext
deriving DecidableEq, Repr

/-- The `/api/status` payload. -/
structure Status where
  is_recording : Bool
  processed_video_count : Nat
deriving DecidableEq, Repr

/-- The React component state: one field per `useState` hook. -/
structure AppState where
  conversationState : Conversation
  status : Status
  lastAgentResponse : String
  loading : Bool
  isProcessingF9 : Bool
  initialized : Bool
  isProcessingVideo : Bool
deriving DecidableEq, Repr

/-- `history.filter(msg => msg.role === 'assistant').pop()`:
the last assistant message of a history, if any. -/
def lastAssistantMessage (history : List Message) : Option Message :=
  (history.filter (fun msg => msg.role == "assistant")).getLast?

/-- The placeholder published on the stop edge. -/
def processingPlaceholder : String :=
  "Recording stopped. Processing your video, please wait..."

/-- `setConversationState(conversationData)` followed by the guarded
update of `lastAgentResponse` from the last assistant message
(the block `if (conversationData.history && conversationData.history.length > 0) ...`). -/
def adoptConversation (cur : AppState) (conversationData : Conversation) : AppState :=
  let s1 := { cur with conversationState := conversationData }
  if conversationData.history ≠ [] then
    match lastAssistantMessage conversationData.history with
    | some lastMessage => { s1 with lastAgentResponse := lastMessage.content }
    | none => s1
  else s1

/-- Result of one poll tick: the state after the tick and how many
`/api/conversation` fetches the tick issued. -/
structure PollResult where
  state : AppState
  convFetches : Nat
deriving DecidableEq, Repr

/-- The stop-edge and completion-edge blocks of `fetchData` (source lines
109-136).  `s` is the closure state captured when the effect registered,
`statusData` the freshly fetched status, `cur` the component state after
the earlier blocks of the tick, `convResp` the result the conversation
endpoint would return, and `fetched` the conversation fetches already
issued this tick. -/
def fetchDataEdges (s : AppState) (statusData : Status) (cur : AppState)
    (convResp : Except Unit Conversation) (fetched : Nat) : PollResult :=
  -- "Check if recording has finished": the stop edge.
  let s1 :=
    if s.status.is_recording && !statusData.is_recording then
      { cur with isProcessingVideo := true, lastAgentResponse := processingPlaceholder }
    else cur
  -- "Only handle video count change when not actively recording": the completion edge.
  if s.isProcessingVideo && !statusData.is_recording
      && decide (statusData.processed_video_count > s.status.processed_video_count) then
    let s2 := { s1 with status := statusData, isProcessingVideo := false }
    match convResp with
    | .error _ => { state := s2, convFetches := fetched + 1 }
    | .ok conversationData =>
        { state := adoptConversation s2 conversationData, convFetches := fetched + 1 }
  else
    { state := s1, convFetches := fetched }

/-- One tick of the 5-second poller (`fetchData`, source lines 73-140).
`statusResp` is the result of the `/api/status` fetch and `convResp` the
result the `/api/conversation` endpoint would return if fetched this
tick (the two conversation-fetch sites are guarded by mutually exclusive
conditions on the closure state, so at most one fetch occurs).  A thrown
fetch is caught by the tick's `catch`; updates already applied stay. -/
def fetchData (s : AppState) (statusResp : Except Unit Status)
    (convResp : Except Unit Conversation) : PollResult :=
  match statusResp with
  | .error _ => { state := s, convFetches := 0 }
  | .ok statusData =>
    -- "Only update recording status ... while recording or processing".
    let s1 :=
      if !s.status.is_recording && !s.isProcessingVideo then
        { s with status := statusData }
      else
        { s with status := { s.status with is_recording := statusData.is_recording } }
    -- "Only fetch conversation state if not recording or processing".
    if !s.status.is_recording && !s.isProcessingVideo then
      match convResp with
      | .error _ => { state := s1, convFetches := 1 }
      | .ok conversationData =>
          fetchDataEdges s statusData (adoptConversation s1 conversationData) convResp 1
    else
      fetchDataEdges s statusData s1 convResp 0

/-- Observable actions of the keyboard handler, in program order. -/
inductive UiAction where
  | publishResponse (msg : String)
  | toggleCall
  | scheduleClearPending (delayMs : Nat)
deriving DecidableEq, Repr

/-- Result of delivering one keydown event: the state afterwards and the
trace of observable actions the handler performed. -/
structure KeyResult where
  state : AppState
  actions : List UiAction
deriving DecidableEq, Repr

/-- The optimistic placeholder published before the toggle call. -/
def startedPlaceholder : String :=
  "Recording started. Press F9 again when you're done to stop and analyze the recording."

/-- The message published when the toggle call fails. -/
def toggleErrorMessage : String :=
  "Error toggling recording. Please try again."

/-- The F9 handler (`handleKeyDown`, source lines 152-194).  `toggleResp`
is the result of the `/api/toggle_recording` call, `.error` standing for
a thrown fetch.  The `finally` block schedules a 1000 ms timeout that
clears `isProcessingF9`; the timeout itself is `clearPendingToggle`. -/
def handleKeyDown (s : AppState) (key : String) (toggleResp : Except Unit Unit) : KeyResult :=
  if key == "F9" then
    -- "Prevent multiple handling of the same F9 press".
    if s.isProcessingF9 || s.isProcessingVideo then
      { state := s, actions := [] }
    else
      let s1 := { s with isProcessingF9 := true }
      -- "If we're not recording, set message before API call".
      let optimistic : KeyResult :=
        if !s.status.is_recording then
          { state := { s1 with lastAgentResponse := startedPlaceholder },
            actions := [UiAction.publishResponse startedPlaceholder] }
        else { state := s1, actions := ([] : List UiAction) }
      match toggleResp with
      | .ok _ =>
        -- "Update recording status flag directly".
        let s2 := { optimistic.state with
                      status := { optimistic.state.status with
                                    is_recording := !optimistic.state.status.is_recording } }
        { state := s2,
          actions := optimistic.actions
            ++ [UiAction.toggleCall, UiAction.scheduleClearPending 1000] }
      | .error _ =>
        { state := { optimistic.state with lastAgentResponse := toggleErrorMessage },
          actions := optimistic.actions
            ++ [UiAction.toggleCall, UiAction.publishResponse toggleErrorMessage,
                UiAction.scheduleClearPending 1000] }
  else { state := s, actions := [] }

/-- The body of the timeout scheduled in the handler's `finally` block:
`setIsProcessingF9(false)`. -/
def clearPendingToggle (s : AppState) : AppState :=
  { s with isProcessingF9 := false }

/-- `queryAgent` (source lines 201-221): brackets `loading`, publishes the
response on success and a fixed apology on failure; never rethrows. -/
def queryAgent (s : AppState) (resp : Except Unit String) : AppState :=
  match resp with
  | .ok r => { s with lastAgentResponse := r, loading := false }
  | .error _ =>
      { s with lastAgentResponse := "Sorry, I encountered an error communicating with the agent.",
               loading := false }

/-- Result of running the session initializer: the state afterwards and
the bootstrap queries it issued, in order. -/
structure InitResult where
  state : AppState
  queriesIssued : List String
deriving DecidableEq, Repr

/-- The "what can I do" bootstrap query. -/
def welcomeQuery : String := "What can I do with this system?"

/-- The "summarize available videos" bootstrap query. -/
def summarizeQuery : String :=
  "Please summarize what videos I have available and what I can do with them."

/-- The session initializer (`initializeConversation`, source lines
24-69).  A thrown fetch is caught: the `catch` only logs and the
`finally` clears `loading`, so `setInitialized(true)` — the last
statement of the `try` block — is skipped on a fetch error.  The agent
query cannot throw (`queryAgent` swallows its own errors). -/
def initializeConversation (s : AppState) (statusResp : Except Unit Status)
    (convResp : Except Unit Conversation) (agentResp : Except Unit String) : InitResult :=
  if s.initialized then { state := s, queriesIssued := [] }
  else
    let s0 := { s with loading := true }
    match statusResp with
    | .error _ => { state := { s0 with loading := false }, queriesIssued := [] }
    | .ok statusData =>
      if statusData.processed_video_count > 0 then
        match convResp with
        | .error _ => { state := { s0 with loading := false }, queriesIssued := [] }
        | .ok conversationData =>
          if conversationData.history.any (fun msg => msg.role == "assistant") then
            let s1 :=
              match lastAssistantMessage conversationData.history with
              | some lastMessage => { s0 with lastAgentResponse := lastMessage.content }
              | none => s0
            { state := { s1 with initialized := true, loading := false }, queriesIssued := [] }
          else
            let s1 := queryAgent s0 agentResp
            { state := { s1 with initialized := true, loading := false },
              queriesIssued := [summarizeQuery] }
      else
        let s1 := queryAgent s0 agentResp
        { state := { s1 with initialized := true, loading := false },
          queriesIssued := [welcomeQuery] }

/-- Every event source of the component, with the network results the
corresponding handler would observe. -/
inductive AppEvent where
  | poll (statusResp : Except Unit Status) (convResp : Except Unit Conversation)
  | keydown (key : String) (toggleResp : Except Unit Unit)
  | cooldownExpire
  | agentQuery (resp : Except Unit String)
  | sessionInit (statusResp : Except Unit Status) (convResp : Except Unit Conversation)
      (agentResp : Except Unit String)
deriving Repr

/-- Dispatch one event to its handler, keeping only the state. -/
def stepEvent (s : AppState) (e : AppEvent) : AppState :=
  match e with
  | .poll statusResp convResp => (fetchData s statusResp convResp).state
  | .keydown key toggleResp => (handleKeyDown s key toggleResp).state
  | .cooldownExpire => clearPendingToggle s
  | .agentQuery resp => queryAgent s resp
  | .sessionInit statusResp convResp agentResp =>
      (initializeConversation s statusResp convResp agentResp).state

/-- Run a sequence of events. -/
def runEvents (s : AppState) (es : List AppEvent) : AppState :=
  es.foldl stepEvent s

/-- Run a sequence of poll ticks, each given by its two fetch results. -/
def runPolls (s : AppState)
    (ticks : List (Except Unit Status × Except Unit Conversation)) : AppState :=
  ticks.foldl (fun st t => (fetchData st t.1 t.2).state) s

/-- Deliver a burst of F9 keydown events, counting toggle calls. -/
def f9Burst (s : AppState) (resps : List (Except Unit Unit)) : AppState × Nat :=
  resps.foldl (fun acc resp =>
    let r := handleKeyDown acc.1 "F9" resp
    (r.state, acc.2 + r.actions.count UiAction.toggleCall)) (s, 0)

/-! ### Concrete fixtures used by witnesses and counterexamples -/

/-- An empty memory context. -/
def emptyMemory : MemoryContext := ⟨none, none, []⟩

/-- An empty conversation snapshot. -/
def emptyConversation : Conversation := ⟨[], [], emptyMemory⟩

/-- A snapshot whose last assistant message is "hello". -/
def sampleConversation : Conversation :=
  ⟨[⟨"user", "hi"⟩, ⟨"assistant", "hello"⟩, ⟨"user", "more"⟩], [], emptyMemory⟩

/-- A stable initialized state: not recording, not processing. -/
def baseState : AppState :=
  ⟨emptyConversation, ⟨false, 0⟩, "r0", false, false, true, false⟩

/-- A state in the processing window: not recording, processing set. -/
def processingState : AppState :=
  ⟨emptyConversation, ⟨false, 0⟩, "r0", false, false, true, true⟩

/-- A state whose stored status says recording. -/
def recordingState : AppState :=
  ⟨emptyConversation, ⟨true, 2⟩, "r0", false, false, true, false⟩

/-- A state that is simultaneously recording (per a polled echo) and
processing — reachable through the partial-update path. -/
def echoState : AppState :=
  ⟨emptyConversation, ⟨true, 0⟩, "r0", false, false, true, true⟩

/-- An uninitialized session state. -/
def freshState : AppState :=
  ⟨emptyConversation, ⟨false, 0⟩, "", false, false, false, false⟩

/-! ### Helper lemmas -/

theorem lastAssistantMessage_nil : lastAssistantMessage [] = none := rfl

theorem lastAssistantMessage_mem {history : List Message} {m : Message}
    (h : lastAssistantMessage history = some m) :
    m ∈ history ∧ m.role = "assistant" := by
  unfold lastAssistantMessage at h
  obtain ⟨hne, heq⟩ := List.mem_getLast?_eq_getLast (l := history.filter _) (x := m) h
  have hm : m ∈ history.filter (fun msg => msg.role == "assistant") := by
    rw [heq]; exact List.getLast_mem hne
  have := List.mem_filter.mp hm
  exact ⟨this.1, by simpa using this.2⟩

theorem history_ne_nil_of_lastAssistant {history : List Message} {m : Message}
    (h : lastAssistantMessage history = some m) : history ≠ [] := by
  intro hnil
  rw [hnil] at h
  simp [lastAssistantMessage] at h

theorem any_assistant_of_lastAssistant {history : List Message} {m : Message}
    (h : lastAssistantMessage history = some m) :
    history.any (fun msg => msg.role == "assistant") = true := by
  obtain ⟨hmem, hrole⟩ := lastAssistantMessage_mem h
  exact List.any_eq_true.mpr ⟨m, hmem, by simpa using hrole⟩

/-- `adoptConversation` replaces the snapshot wholesale and updates the
response from the last assistant message, nothing else. -/
theorem adoptConversation_eq (cur : AppState) (c : Conversation) :
    adoptConversation cur c =
      { cur with conversationState := c,
                 lastAgentResponse :=
                   match lastAssistantMessage c.history with
                   | some lastMessage => lastMessage.content
                   | none => cur.lastAgentResponse } := by
  unfold adoptConversation
  by_cases hh : c.history = []
  · simp [hh, lastAssistantMessage]
  · simp only [hh, ne_eq, not_false_eq_true, if_true]
    cases hl : lastAssistantMessage c.history <;> simp [hl]

/-- A stable-state tick with both fetches succeeding adopts the status and
then the conversation wholesale, in one conversation fetch. -/
theorem fetchData_stable_eq (s : AppState) (st : Status) (c : Conversation)
    (hrec : s.status.is_recording = false) (hproc : s.isProcessingVideo = false) :
    fetchData s (.ok st) (.ok c) =
      { state := adoptConversation { s with status := st } c, convFetches := 1 } := by
  unfold fetchData fetchDataEdges
  simp [hrec, hproc]

/-- While processing, a tick whose fetched count does not pass the stored
count keeps the processing flag and the stored count. -/
theorem fetchData_processing_invariant (s : AppState) (statusResp : Except Unit Status)
    (convResp : Except Unit Conversation) (n : Nat)
    (hproc : s.isProcessingVideo = true) (hn : s.status.processed_video_count = n)
    (hbound : ∀ st : Status, statusResp = Except.ok st → st.processed_video_count ≤ n) :
    (fetchData s statusResp convResp).state.isProcessingVideo = true ∧
    (fetchData s statusResp convResp).state.status.processed_video_count = n := by
  cases statusResp with
  | error e => exact ⟨hproc, hn⟩
  | ok st =>
    have hle := hbound st rfl
    have hngt : ¬ (n < st.processed_video_count) := by omega
    by_cases hstop : (s.status.is_recording && !st.is_recording) = true <;>
      simp [fetchData, fetchDataEdges, hproc, hstop, hngt, hn]

/-- A keydown received while a toggle is pending or a video is processing
is a no-op. -/
theorem handleKeyDown_pending_noop (s : AppState) (key : String)
    (toggleResp : Except Unit Unit)
    (h : s.isProcessingF9 = true ∨ s.isProcessingVideo = true) :
    handleKeyDown s key toggleResp = { state := s, actions := [] } := by
  unfold handleKeyDown
  rcases h with h | h <;> by_cases hk : (key == "F9") = true <;> simp [hk, h]

/-- The keydown handler never touches the processing flag or the count. -/
theorem handleKeyDown_preserves (s : AppState) (key : String)
    (toggleResp : Except Unit Unit) :
    (handleKeyDown s key toggleResp).state.isProcessingVideo = s.isProcessingVideo ∧
    (handleKeyDown s key toggleResp).state.status.processed_video_count
      = s.status.processed_video_count := by
  unfold handleKeyDown
  by_cases hk : (key == "F9") = true <;>
    by_cases hg : (s.isProcessingF9 || s.isProcessingVideo) = true <;>
      cases toggleResp <;>
        by_cases hr : (!s.status.is_recording) = true <;> simp [hk, hg, hr]

/-- The query controller only touches `lastAgentResponse` and `loading`. -/
theorem queryAgent_preserves (s : AppState) (resp : Except Unit String) :
    (queryAgent s resp).isProcessingVideo = s.isProcessingVideo ∧
    (queryAgent s resp).status = s.status ∧
    (queryAgent s resp).initialized = s.initialized := by
  cases resp <;> simp [queryAgent]

/-- The initializer never touches the processing flag or the status. -/
theorem initializeConversation_preserves (s : AppState) (a : Except Unit Status)
    (b : Except Unit Conversation) (c : Except Unit String) :
    (initializeConversation s a b c).state.isProcessingVideo = s.isProcessingVideo ∧
    (initializeConversation s a b c).state.status = s.status := by
  unfold initializeConversation queryAgent
  repeat' split
  all_goals simp

/-- If a tick run while processing clears the flag, its status fetch
succeeded with a non-recording status whose count passed the stored one. -/
theorem fetchData_clears (s : AppState) (st : Status) (convResp : Except Unit Conversation)
    (hproc : s.isProcessingVideo = true)
    (hclear : (fetchData s (Except.ok st) convResp).state.isProcessingVideo = false) :
    st.is_recording = false ∧
    s.status.processed_video_count < st.processed_video_count := by
  by_cases hc : st.is_recording = false ∧
      s.status.processed_video_count < st.processed_video_count
  · exact hc
  · exfalso
    by_cases hstop : (s.status.is_recording && !st.is_recording) = true <;>
      simp [fetchData, fetchDataEdges, hproc, hstop, hc] at hclear

/-- Event-level version of `fetchData_clears`: only a poll whose fetched
status satisfies the completion condition can clear the processing flag. -/
theorem stepEvent_clears (s : AppState) (e : AppEvent)
    (hproc : s.isProcessingVideo = true)
    (hclear : (stepEvent s e).isProcessingVideo = false) :
    ∃ st convResp, e = AppEvent.poll (Except.ok st) convResp ∧
      st.is_recording = false ∧
      s.status.processed_video_count < st.processed_video_count := by
  cases e with
  | poll statusResp convResp =>
    cases statusResp with
    | error u => simp [stepEvent, fetchData, hproc] at hclear
    | ok st => exact ⟨st, convResp, rfl, fetchData_clears s st convResp hproc hclear⟩
  | keydown k tr =>
    exfalso
    have h := (handleKeyDown_preserves s k tr).1
    rw [stepEvent] at hclear
    rw [hclear, hproc] at h
    exact Bool.false_ne_true h
  | cooldownExpire =>
    exfalso
    rw [stepEvent] at hclear
    have h : s.isProcessingVideo = false := hclear
    rw [hproc] at h
    exact Bool.false_ne_true h.symm
  | agentQuery r =>
    exfalso
    have h := (queryAgent_preserves s r).1
    rw [stepEvent] at hclear
    rw [hclear, hproc] at h
    exact Bool.false_ne_true h
  | sessionInit a b c =>
    exfalso
    have h := (initializeConversation_preserves s a b c).1
    rw [stepEvent] at hclear
    rw [hclear, hproc] at h
    exact Bool.false_ne_true h

/-- Processing invariant over any event sequence without a completing poll. -/
theorem runEvents_processing_invariant (es : List AppEvent) (s : AppState) (n : Nat)
    (hproc : s.isProcessingVideo = true) (hn : s.status.processed_video_count = n)
    (hb : ∀ e ∈ es, ∀ st convResp, e = AppEvent.poll (Except.ok st) convResp →
        st.processed_video_count ≤ n) :
    (runEvents s es).isProcessingVideo = true ∧
    (runEvents s es).status.processed_video_count = n := by
  induction es generalizing s with
  | nil => exact ⟨hproc, hn⟩
  | cons e es ih =>
    have hstep : (stepEvent s e).isProcessingVideo = true ∧
        (stepEvent s e).status.processed_video_count = n := by
      cases e with
      | poll a b =>
        simpa [stepEvent] using fetchData_processing_invariant s a b n hproc hn
          (fun st hst => hb _ (List.mem_cons_self _ _) st b (by rw [hst]))
      | keydown k tr =>
        have h := handleKeyDown_preserves s k tr
        exact ⟨by rw [stepEvent, h.1, hproc], by rw [stepEvent, h.2, hn]⟩
      | cooldownExpire => exact ⟨hproc, hn⟩
      | agentQuery r =>
        have h := queryAgent_preserves s r
        exact ⟨by rw [stepEvent, h.1, hproc], by rw [stepEvent, h.2.1, hn]⟩
      | sessionInit a b c =>
        have h := initializeConversation_preserves s a b c
        exact ⟨by rw [stepEvent, h.1, hproc], by rw [stepEvent, h.2, hn]⟩
    have hrest : ∀ e' ∈ es, ∀ st convResp,
        e' = AppEvent.poll (Except.ok st) convResp → st.processed_video_count ≤ n :=
      fun e' he' => hb e' (List.mem_cons_of_mem _ he')
    simpa [runEvents, List.foldl_cons] using
      ih (stepEvent s e) hstep.1 hstep.2 hrest

/-- Processing invariant over poll-only sequences. -/
theorem runPolls_processing_invariant
    (ticks : List (Except Unit Status × Except Unit Conversation))
    (s : AppState) (n : Nat)
    (hproc : s.isProcessingVideo = true) (hn : s.status.processed_video_count = n)
    (hb : ∀ t ∈ ticks, ∀ st : Status, t.1 = Except.ok st →
        st.processed_video_count ≤ n) :
    (runPolls s ticks).isProcessingVideo = true ∧
    (runPolls s ticks).status.processed_video_count = n := by
  induction ticks generalizing s with
  | nil => exact ⟨hproc, hn⟩
  | cons t ts ih =>
    have hstep := fetchData_processing_invariant s t.1 t.2 n hproc hn
      (fun st hst => hb t (List.mem_cons_self _ _) st hst)
    have hrest : ∀ t' ∈ ts, ∀ st : Status, t'.1 = Except.ok st →
        st.processed_video_count ≤ n :=
      fun t' ht' => hb t' (List.mem_cons_of_mem _ ht')
    simpa [runPolls, List.foldl_cons] using
      ih (fetchData s t.1 t.2).state hstep.1 hstep.2 hrest

/-- A completion-edge tick with both fetches succeeding: full status adopt,
processing cleared, stop-edge placeholder only when the stored status still
said recording, then conversation adoption. -/
theorem fetchData_completion_eq (s : AppState) (st : Status) (c : Conversation)
    (hproc : s.isProcessingVideo = true) (hrec : st.is_recording = false)
    (hcount : s.status.processed_video_count < st.processed_video_count) :
    fetchData s (.ok st) (.ok c) =
      { state := adoptConversation
          { s with status := st, isProcessingVideo := false,
                   lastAgentResponse :=
                     if s.status.is_recording = true then processingPlaceholder
                     else s.lastAgentResponse } c,
        convFetches := 1 } := by
  unfold fetchData fetchDataEdges
  by_cases hstop : s.status.is_recording = true <;> simp [hproc, hrec, hcount, hstop]

/-- The edge blocks leave the snapshot as given or adopt a fetched one. -/
theorem fetchDataEdges_conversation (s : AppState) (st : Status) (cur : AppState)
    (convResp : Except Unit Conversation) (n : Nat) :
    (fetchDataEdges s st cur convResp n).state.conversationState
        = cur.conversationState ∨
    ∃ c, convResp = Except.ok c ∧
      (fetchDataEdges s st cur convResp n).state.conversationState = c := by
  unfold fetchDataEdges
  by_cases h2 : (s.status.is_recording && !st.is_recording) = true <;>
    by_cases h3 : (s.isProcessingVideo && !st.is_recording
        && decide (st.processed_video_count > s.status.processed_video_count)) = true <;>
      cases convResp <;> simp [h2, h3, adoptConversation_eq]

/-- Any poll tick leaves the stored conversation snapshot untouched or
replaces it with a fetched snapshot wholesale. -/
theorem fetchData_conversation_frame (s : AppState) (statusResp : Except Unit Status)
    (convResp : Except Unit Conversation) :
    (fetchData s statusResp convResp).state.conversationState = s.conversationState ∨
    ∃ c, convResp = Except.ok c ∧
      (fetchData s statusResp convResp).state.conversationState = c := by
  cases statusResp with
  | error u => exact Or.inl rfl
  | ok st =>
    unfold fetchData
    by_cases h1 : (!s.status.is_recording && !s.isProcessingVideo) = true
    · cases convResp with
      | error u => simp [h1]
      | ok c =>
        simp only [h1, if_true]
        right
        refine ⟨c, rfl, ?_⟩
        rcases fetchDataEdges_conversation s st
            (adoptConversation { s with status := st } c) (.ok c) 1 with h | ⟨c', hc', h⟩
        · rw [h, adoptConversation_eq]
        · rw [h]; cases hc'; rfl
    · simp only [h1, if_false, Bool.false_eq_true]
      rcases fetchDataEdges_conversation s st
          { s with status := { s.status with is_recording := st.is_recording } }
          convResp 0 with h | ⟨c', hc', h⟩
      · exact Or.inl h
      · exact Or.inr ⟨c', hc', h⟩

/-! ### Claim theorems -/

/-- C4: an F9 keydown received while `isProcessingF9` or `isProcessingVideo`
holds is a no-op: no toggle network call is issued and no field of the
state changes. -/
theorem hotkey_reentrancy_guard (s : AppState) (toggleResp : Except Unit Unit)
    (h : s.isProcessingF9 = true ∨ s.isProcessingVideo = true) :
    handleKeyDown s "F9" toggleResp = { state := s, actions := [] } :=
  handleKeyDown_pending_noop s "F9" toggleResp h

/-- A state with a pending toggle, used as witness input. -/
def pendingState : AppState :=
  ⟨emptyConversation, ⟨false, 0⟩, "r0", false, true, true, false⟩

theorem hotkey_reentrancy_guard_witness :
    (pendingState.isProcessingF9 = true ∨ pendingState.isProcessingVideo = true) ∧
    handleKeyDown pendingState "F9" (Except.ok ())
      = { state := pendingState, actions := [] } :=
  ⟨Or.inl rfl, hotkey_reentrancy_guard pendingState (Except.ok ()) (Or.inl rfl)⟩

/-- C6: a poll tick starting in the stable state (stored status not
recording, not processing) with both fetches succeeding adopts the fetched
status and conversation snapshot wholesale and publishes the last assistant
message of the fetched history as `lastAgentResponse`; when the history
holds no assistant message the response is left unchanged. -/
theorem stable_tick_full_adopt (s : AppState) (st : Status) (c : Conversation)
    (hrec : s.status.is_recording = false) (hproc : s.isProcessingVideo = false) :
    (fetchData s (.ok st) (.ok c)).state.status = st ∧
    (fetchData s (.ok st) (.ok c)).state.conversationState = c ∧
    (fetchData s (.ok st) (.ok c)).convFetches = 1 ∧
    (∀ m, lastAssistantMessage c.history = some m →
      (fetchData s (.ok st) (.ok c)).state.lastAgentResponse = m.content) ∧
    (lastAssistantMessage c.history = none →
      (fetchData s (.ok st) (.ok c)).state.lastAgentResponse = s.lastAgentResponse) := by
  rw [fetchData_stable_eq s st c hrec hproc, adoptConversation_eq]
  refine ⟨rfl, rfl, rfl, ?_, ?_⟩
  · intro m hm; simp [hm]
  · intro hm; simp [hm]

theorem stable_tick_full_adopt_witness :
    baseState.status.is_recording = false ∧ baseState.isProcessingVideo = false ∧
    (fetchData baseState (.ok ⟨false, 3⟩) (.ok sampleConversation)).state.status
      = ⟨false, 3⟩ ∧
    (fetchData baseState (.ok ⟨false, 3⟩) (.ok sampleConversation)).state.conversationState
      = sampleConversation ∧
    (fetchData baseState (.ok ⟨false, 3⟩) (.ok sampleConversation)).convFetches = 1 ∧
    (fetchData baseState (.ok ⟨false, 3⟩) (.ok sampleConversation)).state.lastAgentResponse
      = "hello" := by
  have h := stable_tick_full_adopt baseState ⟨false, 3⟩ sampleConversation rfl rfl
  exact ⟨rfl, rfl, h.1, h.2.1, h.2.2.1, h.2.2.2.1 ⟨"assistant", "hello"⟩ rfl⟩

/-- C1: a poll tick run while `isProcessingVideo` holds whose fetched status
is not recording and whose fetched count strictly exceeds the stored count
adopts the fetched status, clears `isProcessingVideo`, performs exactly one
conversation fetch and publishes that snapshot's last assistant message (if
any); the resulting state is stable, so the next tick full-adopts again. -/
theorem completion_edge_behaviour (s : AppState) (st : Status) (c : Conversation)
    (hproc : s.isProcessingVideo = true)
    (hrec : st.is_recording = false)
    (hcount : s.status.processed_video_count < st.processed_video_count) :
    (fetchData s (.ok st) (.ok c)).state.status = st ∧
    (fetchData s (.ok st) (.ok c)).state.isProcessingVideo = false ∧
    (fetchData s (.ok st) (.ok c)).convFetches = 1 ∧
    (∀ m, lastAssistantMessage c.history = some m →
      (fetchData s (.ok st) (.ok c)).state.lastAgentResponse = m.content) ∧
    (∀ st2 c2,
      (fetchData (fetchData s (.ok st) (.ok c)).state (.ok st2) (.ok c2)).state.status
          = st2 ∧
      (fetchData (fetchData s (.ok st) (.ok c)).state (.ok st2) (.ok c2)).state.conversationState
          = c2) := by
  rw [fetchData_completion_eq s st c hproc hrec hcount, adoptConversation_eq]
  refine ⟨rfl, rfl, rfl, ?_, ?_⟩
  · intro m hm; simp [hm]
  · intro st2 c2
    rw [fetchData_stable_eq _ st2 c2 hrec rfl, adoptConversation_eq]
    exact ⟨rfl, rfl⟩

theorem completion_edge_behaviour_witness :
    processingState.isProcessingVideo = true ∧
    (false = (false : Bool)) ∧
    processingState.status.processed_video_count < 1 ∧
    (fetchData processingState (.ok ⟨false, 1⟩) (.ok sampleConversation)).state.status
      = ⟨false, 1⟩ ∧
    (fetchData processingState (.ok ⟨false, 1⟩) (.ok sampleConversation)).state.isProcessingVideo
      = false ∧
    (fetchData processingState (.ok ⟨false, 1⟩) (.ok sampleConversation)).convFetches = 1 ∧
    (fetchData processingState (.ok ⟨false, 1⟩) (.ok sampleConversation)).state.lastAgentResponse
      = "hello" ∧
    (fetchData (fetchData processingState (.ok ⟨false, 1⟩) (.ok sampleConversation)).state
        (.ok ⟨false, 2⟩) (.ok emptyConversation)).state.status = ⟨false, 2⟩ := by
  have h := completion_edge_behaviour processingState ⟨false, 1⟩ sampleConversation
    rfl rfl (by decide)
  exact ⟨rfl, rfl, by decide, h.1, h.2.1, h.2.2.1,
    h.2.2.2.1 ⟨"assistant", "hello"⟩ rfl,
    (h.2.2.2.2 ⟨false, 2⟩ emptyConversation).1⟩

/-- C5: on a poll tick inside a recording or processing window where neither
the stop edge nor the completion edge fires, only the `is_recording` field
of the stored status changes, nothing else, and no conversation fetch is
issued; and in general a tick either replaces the stored conversation
snapshot wholesale with a fetched one or leaves it identical. -/
theorem poll_window_frame (s : AppState) (st : Status)
    (convResp : Except Unit Conversation)
    (hwin : s.status.is_recording = true ∨ s.isProcessingVideo = true)
    (hnostop : ¬ (s.status.is_recording = true ∧ st.is_recording = false))
    (hnocomp : ¬ (s.isProcessingVideo = true ∧ st.is_recording = false ∧
        s.status.processed_video_count < st.processed_video_count)) :
    (fetchData s (.ok st) convResp =
      { state := { s with status := { s.status with is_recording := st.is_recording } },
        convFetches := 0 }) ∧
    ∀ (s' : AppState) (statusResp' : Except Unit Status)
        (convResp' : Except Unit Conversation),
      (fetchData s' statusResp' convResp').state.conversationState
          = s'.conversationState ∨
      ∃ c, convResp' = Except.ok c ∧
        (fetchData s' statusResp' convResp').state.conversationState = c := by
  refine ⟨?_, fun s' a b => fetchData_conversation_frame s' a b⟩
  rcases hwin with hw | hw <;>
    by_cases h1 : s.status.is_recording = true <;>
    by_cases h2 : st.is_recording = true <;>
    by_cases h3 : s.isProcessingVideo = true <;>
    simp_all [fetchData, fetchDataEdges]

theorem poll_window_frame_witness :
    (recordingState.status.is_recording = true ∨
      recordingState.isProcessingVideo = true) ∧
    (fetchData recordingState (.ok ⟨true, 3⟩) (.ok sampleConversation) =
      { state := { recordingState with
                     status := { recordingState.status with is_recording := true } },
        convFetches := 0 }) ∧
    ((fetchData baseState (.ok ⟨false, 0⟩) (.ok emptyConversation)).state.conversationState
        = baseState.conversationState ∨
      ∃ c, (Except.ok emptyConversation : Except Unit Conversation) = Except.ok c ∧
        (fetchData baseState (.ok ⟨false, 0⟩)
            (.ok emptyConversation)).state.conversationState = c) := by
  have h := poll_window_frame recordingState ⟨true, 3⟩ (.ok sampleConversation)
    (Or.inl rfl) (by decide) (by decide)
  exact ⟨Or.inl rfl, h.1, h.2 baseState (.ok ⟨false, 0⟩) (.ok emptyConversation)⟩

/-- C2 fails as stated: on a tick whose previous status says recording and
whose fetched status does not, but where processing was already set (via a
polled recording echo) and the fetched count exceeds the stored count, the
completion edge fires on the same tick and the tick ends with
`isProcessingVideo = false` instead of true. -/
theorem stop_edge_claim_counterexample :
    echoState.status.is_recording = true ∧
    (Status.mk false 1).is_recording = false ∧
    echoState.status.processed_video_count = 0 ∧
    (fetchData echoState (.ok ⟨false, 1⟩) (.error ())).state.isProcessingVideo = false ∧
    (fetchData echoState (.ok ⟨false, 1⟩) (.error ())).state.status.processed_video_count
      = 1 :=
  ⟨rfl, rfl, rfl, rfl, rfl⟩

/-- C2 (amended): on a poll tick where the stored status says recording and
the fetched one does not — provided the completion edge does not fire on the
same tick, i.e. it is not the case that `isProcessingVideo` was already set
with the fetched count past the stored count — the orchestrator sets
`isProcessingVideo`, publishes the processing placeholder, and keeps the
stored count `N`; every following tick whose fetched count stays at or
below `N` keeps the stored count at `N` and the processing flag set. -/
theorem stop_edge_detection (s : AppState) (st : Status)
    (convResp : Except Unit Conversation)
    (ticks : List (Except Unit Status × Except Unit Conversation))
    (hprev : s.status.is_recording = true)
    (hnew : st.is_recording = false)
    (hnocomp : ¬ (s.isProcessingVideo = true ∧
        s.status.processed_video_count < st.processed_video_count))
    (hticks : ∀ t ∈ ticks, ∀ st' : Status, t.1 = Except.ok st' →
        st'.processed_video_count ≤ s.status.processed_video_count) :
    (fetchData s (.ok st) convResp).state.isProcessingVideo = true ∧
    (fetchData s (.ok st) convResp).state.lastAgentResponse = processingPlaceholder ∧
    (fetchData s (.ok st) convResp).state.status.processed_video_count
        = s.status.processed_video_count ∧
    (runPolls (fetchData s (.ok st) convResp).state ticks).isProcessingVideo = true ∧
    (runPolls (fetchData s (.ok st) convResp).state ticks).status.processed_video_count
        = s.status.processed_video_count := by
  have hstep : fetchData s (.ok st) convResp =
      { state := { s with status := { s.status with is_recording := st.is_recording },
                          isProcessingVideo := true,
                          lastAgentResponse := processingPlaceholder },
        convFetches := 0 } := by
    unfold fetchData fetchDataEdges
    by_cases hp : s.isProcessingVideo = true
    · have hng : ¬ (s.status.processed_video_count < st.processed_video_count) :=
        fun hlt => hnocomp ⟨hp, hlt⟩
      simp [hprev, hnew, hp, hng]
    · simp [hprev, hnew, hp]
  rw [hstep]
  have hinv := runPolls_processing_invariant ticks
    { s with status := { s.status with is_recording := st.is_recording },
             isProcessingVideo := true,
             lastAgentResponse := processingPlaceholder }
    s.status.processed_video_count rfl rfl hticks
  exact ⟨rfl, rfl, rfl, hinv.1, hinv.2⟩

theorem stop_edge_detection_witness :
    recordingState.status.is_recording = true ∧
    (Status.mk false 2).is_recording = false ∧
    ¬ (recordingState.isProcessingVideo = true ∧
        recordingState.status.processed_video_count < 2) ∧
    (fetchData recordingState (.ok ⟨false, 2⟩) (.error ())).state.isProcessingVideo
      = true ∧
    (fetchData recordingState (.ok ⟨false, 2⟩) (.error ())).state.lastAgentResponse
      = processingPlaceholder ∧
    (fetchData recordingState (.ok ⟨false, 2⟩) (.error ())).state.status.processed_video_count
      = 2 ∧
    (runPolls (fetchData recordingState (.ok ⟨false, 2⟩) (.error ())).state
        [(.ok ⟨false, 2⟩, .error ()), (.error (), .error ())]).isProcessingVideo = true ∧
    (runPolls (fetchData recordingState (.ok ⟨false, 2⟩) (.error ())).state
        [(.ok ⟨false, 2⟩, .error ()), (.error (), .error ())]).status.processed_video_count
      = 2 := by
  have h := stop_edge_detection recordingState ⟨false, 2⟩ (.error ())
    [(.ok ⟨false, 2⟩, .error ()), (.error (), .error ())]
    rfl rfl (by decide) ?_
  · exact ⟨rfl, rfl, by decide, h.1, h.2.1, h.2.2.1, h.2.2.2.1, h.2.2.2.2⟩
  · intro t ht st' hst'
    rcases List.mem_cons.mp ht with h1 | h1
    · subst h1
      injection hst' with h2
      subst h2
      exact Nat.le_refl _
    · rcases List.mem_singleton.mp h1 with rfl
      cases hst'

/-- C7: a qualifying F9 trigger while not recording publishes the
"recording started" placeholder before the toggle call; on success the
local `is_recording` flag is flipped to true; on failure the error message
is published, `is_recording` stays unchanged and `isProcessingVideo` is
never set. -/
theorem toggle_optimistic_publish (s : AppState) (toggleResp : Except Unit Unit)
    (hpend : s.isProcessingF9 = false) (hproc : s.isProcessingVideo = false)
    (hrec : s.status.is_recording = false) :
    (toggleResp = Except.ok () →
      handleKeyDown s "F9" toggleResp =
        { state := { s with isProcessingF9 := true,
                            lastAgentResponse := startedPlaceholder,
                            status := { s.status with is_recording := true } },
          actions := [UiAction.publishResponse startedPlaceholder, UiAction.toggleCall,
                      UiAction.scheduleClearPending 1000] }) ∧
    (toggleResp = Except.error () →
      handleKeyDown s "F9" toggleResp =
        { state := { s with isProcessingF9 := true,
                            lastAgentResponse := toggleErrorMessage },
          actions := [UiAction.publishResponse startedPlaceholder, UiAction.toggleCall,
                      UiAction.publishResponse toggleErrorMessage,
                      UiAction.scheduleClearPending 1000] }) := by
  constructor <;> (intro h; subst h; simp [handleKeyDown, hpend, hproc, hrec])

theorem toggle_optimistic_publish_witness :
    baseState.isProcessingF9 = false ∧
    baseState.isProcessingVideo = false ∧
    baseState.status.is_recording = false ∧
    handleKeyDown baseState "F9" (Except.error ()) =
      { state := { baseState with isProcessingF9 := true,
                                  lastAgentResponse := toggleErrorMessage },
        actions := [UiAction.publishResponse startedPlaceholder, UiAction.toggleCall,
                    UiAction.publishResponse toggleErrorMessage,
                    UiAction.scheduleClearPending 1000] } :=
  ⟨rfl, rfl, rfl,
    (toggle_optimistic_publish baseState (Except.error ()) rfl rfl rfl).2 rfl⟩

/-- While a toggle is pending, a burst of further F9 events is absorbed:
no state change and no further toggle calls. -/
theorem f9Burst_pending (s : AppState) (resps : List (Except Unit Unit))
    (h : s.isProcessingF9 = true) :
    f9Burst s resps = (s, 0) := by
  induction resps with
  | nil => rfl
  | cons r rs ih =>
    simp only [f9Burst, List.foldl_cons]
    rw [handleKeyDown_pending_noop s "F9" r (Or.inl h)]
    simpa [f9Burst] using ih

/-- C8: from a ready state, an F9 event issues exactly one toggle call and
schedules the 1000 ms cooldown whether the call succeeds or fails; every
further F9 event arriving before the cooldown fires is absorbed (zero
additional calls, state unchanged); the cooldown body then clears
`isProcessingF9`. -/
theorem toggle_debounce (s : AppState) (resp : Except Unit Unit)
    (resps : List (Except Unit Unit))
    (hpend : s.isProcessingF9 = false) (hproc : s.isProcessingVideo = false) :
    ((handleKeyDown s "F9" resp).actions.count UiAction.toggleCall = 1) ∧
    (UiAction.scheduleClearPending 1000 ∈ (handleKeyDown s "F9" resp).actions) ∧
    ((handleKeyDown s "F9" resp).state.isProcessingF9 = true) ∧
    (f9Burst (handleKeyDown s "F9" resp).state resps
        = ((handleKeyDown s "F9" resp).state, 0)) ∧
    ((clearPendingToggle (handleKeyDown s "F9" resp).state).isProcessingF9 = false) := by
  have hpend1 : (handleKeyDown s "F9" resp).state.isProcessingF9 = true := by
    cases resp <;> by_cases hr : (!s.status.is_recording) = true <;>
      simp [handleKeyDown, hpend, hproc, hr]
  refine ⟨?_, ?_, hpend1, f9Burst_pending _ resps hpend1, rfl⟩
  · cases resp <;> by_cases hr : (!s.status.is_recording) = true <;>
      simp [handleKeyDown, hpend, hproc, hr]
  · cases resp <;> by_cases hr : (!s.status.is_recording) = true <;>
      simp [handleKeyDown, hpend, hproc, hr]

theorem toggle_debounce_witness :
    baseState.isProcessingF9 = false ∧
    baseState.isProcessingVideo = false ∧
    ((handleKeyDown baseState "F9" (Except.ok ())).actions.count UiAction.toggleCall
      = 1) ∧
    (f9Burst (handleKeyDown baseState "F9" (Except.ok ())).state
        [Except.ok (), Except.error ()]
      = ((handleKeyDown baseState "F9" (Except.ok ())).state, 0)) ∧
    ((clearPendingToggle
        (handleKeyDown baseState "F9" (Except.ok ())).state).isProcessingF9 = false) := by
  have h := toggle_debounce baseState (Except.ok ()) [Except.ok (), Except.error ()]
    rfl rfl
  exact ⟨rfl, rfl, h.1, h.2.2.2.1, h.2.2.2.2⟩

/-- C9: the initializer, run while uninitialized with a successful status
fetch, issues the "what can I do" query exactly once when the count is 0;
with a positive count and a history holding an assistant message it issues
no query and adopts that message's content; with a positive count and no
assistant message it issues the summarize query exactly once. -/
theorem initializer_bootstrap_cases (s : AppState) (st : Status)
    (convResp : Except Unit Conversation) (agentResp : Except Unit String)
    (hinit : s.initialized = false) :
    (st.processed_video_count = 0 →
      (initializeConversation s (.ok st) convResp agentResp).queriesIssued
        = [welcomeQuery]) ∧
    (∀ c m, 0 < st.processed_video_count →
      lastAssistantMessage c.history = some m →
      (initializeConversation s (.ok st) (.ok c) agentResp).queriesIssued = [] ∧
      (initializeConversation s (.ok st) (.ok c) agentResp).state.lastAgentResponse
        = m.content) ∧
    (∀ c, 0 < st.processed_video_count →
      c.history.any (fun msg => msg.role == "assistant") = false →
      (initializeConversation s (.ok st) (.ok c) agentResp).queriesIssued
        = [summarizeQuery]) := by
  refine ⟨?_, ?_, ?_⟩
  · intro h0
    unfold initializeConversation
    simp [hinit, h0]
  · intro c m hpos hlast
    have hany := any_assistant_of_lastAssistant hlast
    unfold initializeConversation
    simp [hinit, hpos, hany, hlast]
  · intro c hpos hnone
    unfold initializeConversation
    simp [hinit, hpos, hnone]

theorem initializer_bootstrap_cases_witness :
    freshState.initialized = false ∧
    (initializeConversation freshState (.ok ⟨false, 0⟩) (.error ())
        (.ok "w")).queriesIssued = [welcomeQuery] ∧
    (initializeConversation freshState (.ok ⟨false, 2⟩) (.ok sampleConversation)
        (.error ())).queriesIssued = [] ∧
    (initializeConversation freshState (.ok ⟨false, 2⟩) (.ok sampleConversation)
        (.error ())).state.lastAgentResponse = "hello" ∧
    (initializeConversation freshState (.ok ⟨false, 2⟩) (.ok emptyConversation)
        (.ok "sum")).queriesIssued = [summarizeQuery] := by
  have h1 := initializer_bootstrap_cases freshState ⟨false, 0⟩ (.error ()) (.ok "w") rfl
  have h2 := initializer_bootstrap_cases freshState ⟨false, 2⟩ (.ok sampleConversation)
    (.error ()) rfl
  have h3 := initializer_bootstrap_cases freshState ⟨false, 2⟩ (.ok emptyConversation)
    (.ok "sum") rfl
  refine ⟨rfl, h1.1 rfl, ?_, ?_, h3.2.2 emptyConversation (by decide) rfl⟩
  · exact (h2.2.1 sampleConversation ⟨"assistant", "hello"⟩ (by decide) rfl).1
  · exact (h2.2.1 sampleConversation ⟨"assistant", "hello"⟩ (by decide) rfl).2

/-- C3 fails as stated: `setInitialized(true)` is the last statement of the
try block, not part of the finally step, so a failing status fetch leaves
`initialized` false after the initializer runs. -/
theorem initializer_finally_counterexample :
    freshState.initialized = false ∧
    (initializeConversation freshState (.error ()) (.error ())
        (.error ())).state.initialized = false :=
  ⟨rfl, rfl⟩

/-- C3 (amended): the initializer is gated by `initialized` and sets it as
the last step of its try block: it ends true whenever the fetches it
performs succeed — also when the bootstrap agent query fails, since the
query controller swallows its own errors — and a later invocation is then a
no-op; but a failing status or conversation fetch leaves `initialized`
unchanged (false), and the finally step only clears `loading`. -/
theorem initializer_initialized_flag (s : AppState) (st : Status)
    (convResp : Except Unit Conversation) (agentResp : Except Unit String) :
    (s.initialized = true →
      initializeConversation s (.ok st) convResp agentResp
        = { state := s, queriesIssued := [] }) ∧
    (s.initialized = false → st.processed_video_count = 0 →
      (initializeConversation s (.ok st) convResp agentResp).state.initialized
        = true) ∧
    (s.initialized = false → ∀ c, convResp = Except.ok c →
      (initializeConversation s (.ok st) convResp agentResp).state.initialized
        = true) ∧
    ((initializeConversation s (.error ()) convResp agentResp).state.initialized
        = s.initialized) ∧
    (0 < st.processed_video_count →
      (initializeConversation s (.ok st) (.error ()) agentResp).state.initialized
        = s.initialized) ∧
    (s.initialized = false →
      (initializeConversation s (.ok st) convResp agentResp).state.loading = false) := by
  refine ⟨?_, ?_, ?_, ?_, ?_, ?_⟩
  · intro h
    unfold initializeConversation
    simp [h]
  · intro h h0
    unfold initializeConversation queryAgent
    cases agentResp <;> simp [h, h0]
  · intro h c hc
    subst hc
    unfold initializeConversation queryAgent
    by_cases h0 : 0 < st.processed_video_count
    · by_cases hany : (c.history.any (fun msg => msg.role == "assistant")) = true
      · cases hl : lastAssistantMessage c.history <;>
          cases agentResp <;> simp [h, h0, hany, hl]
      · cases agentResp <;> simp [h, h0, hany]
    · cases agentResp <;> simp [h, h0]
  · unfold initializeConversation
    by_cases h : s.initialized = true <;> simp [h]
  · intro h0
    unfold initializeConversation
    by_cases h : s.initialized = true <;> simp [h, h0]
  · intro h
    unfold initializeConversation queryAgent
    by_cases h0 : 0 < st.processed_video_count
    · cases convResp with
      | error u => simp [h, h0]
      | ok c =>
        by_cases hany : (c.history.any (fun msg => msg.role == "assistant")) = true
        · cases hl : lastAssistantMessage c.history <;>
            cases agentResp <;> simp [h, h0, hany, hl]
        · cases agentResp <;> simp [h, h0, hany]
    · cases agentResp <;> simp [h, h0]

theorem initializer_initialized_flag_witness :
    freshState.initialized = false ∧
    (initializeConversation freshState (.ok ⟨false, 2⟩) (.ok emptyConversation)
        (.error ())).state.initialized = true ∧
    (initializeConversation freshState (.error ()) (.error ())
        (.error ())).state.initialized = freshState.initialized ∧
    (initializeConversation freshState (.ok ⟨false, 2⟩) (.error ())
        (.error ())).state.initialized = freshState.initialized ∧
    (initializeConversation freshState (.ok ⟨false, 2⟩) (.ok emptyConversation)
        (.error ())).state.loading = false := by
  have h := initializer_initialized_flag freshState ⟨false, 2⟩ (.ok emptyConversation)
    (.error ())
  have h' := initializer_initialized_flag freshState ⟨false, 2⟩ (.error ()) (.error ())
  exact ⟨rfl, h.2.2.1 rfl emptyConversation rfl, h.2.2.2.1,
    h'.2.2.2.2.1 (by decide), h.2.2.2.2.2 rfl⟩

/-- C10 fails as stated: a poll tick that fails with a network error on its
conversation fetch can still clear `isProcessingVideo`, because the
completion branch clears the flag before issuing that fetch. -/
theorem processing_error_tick_counterexample :
    processingState.isProcessingVideo = true ∧
    (fetchData processingState (.ok ⟨false, 1⟩) (.error ())).state.isProcessingVideo
      = false :=
  ⟨rfl, rfl⟩

/-- C10 (amended): once `isProcessingVideo` is true, the only step that
clears it is a poll whose fetched status is not recording with a count past
the stored count — keydowns, cooldowns, agent queries, the initializer and
polls without that condition all leave it set, so under fetched counts never
passing the baseline the state stays in processing across any event
sequence; a poll meeting the condition clears the flag even when its
follow-up conversation fetch fails. -/
theorem processing_flag_invariant (s : AppState) (e : AppEvent)
    (es : List AppEvent) (st : Status)
    (hproc : s.isProcessingVideo = true) :
    ((stepEvent s e).isProcessingVideo = false →
      ∃ st' convResp, e = AppEvent.poll (Except.ok st') convResp ∧
        st'.is_recording = false ∧
        s.status.processed_video_count < st'.processed_video_count) ∧
    (st.is_recording = false →
      s.status.processed_video_count < st.processed_video_count →
      (fetchData s (.ok st) (.error ())).state.isProcessingVideo = false) ∧
    ((∀ e' ∈ es, ∀ st' convResp, e' = AppEvent.poll (Except.ok st') convResp →
        st'.processed_video_count ≤ s.status.processed_video_count) →
      (runEvents s es).isProcessingVideo = true) := by
  refine ⟨fun hclear => stepEvent_clears s e hproc hclear, ?_, ?_⟩
  · intro hrec hcount
    unfold fetchData fetchDataEdges
    by_cases hstop : (s.status.is_recording && !st.is_recording) = true <;>
      simp [hproc, hrec, hcount, hstop]
  · intro hb
    exact (runEvents_processing_invariant es s s.status.processed_video_count
      hproc rfl hb).1

theorem processing_flag_invariant_witness :
    processingState.isProcessingVideo = true ∧
    (fetchData processingState (.ok ⟨false, 1⟩) (.error ())).state.isProcessingVideo
      = false ∧
    (runEvents processingState
        [AppEvent.keydown "F9" (Except.ok ()),
         AppEvent.poll (Except.ok ⟨false, 0⟩) (Except.error ())]).isProcessingVideo
      = true := by
  have h := processing_flag_invariant processingState
    (AppEvent.poll (Except.ok ⟨false, 1⟩) (Except.error ()))
    [AppEvent.keydown "F9" (Except.ok ()),
     AppEvent.poll (Except.ok ⟨false, 0⟩) (Except.error ())]
    ⟨false, 1⟩ rfl
  refine ⟨rfl, h.2.1 rfl (by decide), h.2.2 ?_⟩
  intro e' he' st' convResp heq
  rcases List.mem_cons.mp he' with h1 | h1
  · subst h1
    cases heq
  · rcases List.mem_singleton.mp h1 with rfl
    injection heq with h2 h3
    injection h2 with h4
    subst h4
    exact Nat.le_refl _

end PwPy
